import Mathlib

/-!
# routing/osrm_router.hpp : RoutingMapping and RoutingIndexManager

A shallow embedding of the two resource-handling classes of
`routing/osrm_router.hpp`:

* `RoutingMapping`  : one tile's data facade, segment mapping and mapped
  container, with the two counters `map_counter` and `facade_counter`;
* `RoutingIndexManager` : the `std::map<string, RoutingMappingPtrT>` cache
  filled by `GetMappingByPoint` and emptied by `Clear`.

The counters are `size_t`.  They are embedded as natural numbers with an
explicit reduction modulo `2 ^ w`, where `w` is the width of `size_t`.
-/

namespace routing

/-! ## Machine arithmetic on `size_t` -/

/-- The operator `++c` on a `size_t` of width `w`. -/
def incr (w c : Nat) : Nat := (c + 1) % 2 ^ w

/-- The operator `--c` on a `size_t` of width `w`: zero wraps to `2 ^ w - 1`. -/
def decr (w c : Nat) : Nat := (c + (2 ^ w - 1)) % 2 ^ w

/-! ## Collaborators

`DataFacadeT`, `OsrmFtSegMapping` and `FilesMappingContainer` are declared in
other headers.  Only what `osrm_router.hpp` observes of them is kept: whether
the facade is loaded, whether the mapping is mapped, whether the container is
open.  Every call into a collaborator is recorded in a ghost log. -/

/-- The calls `RoutingMapping` makes into its three members. -/
inductive Call where
  | facadeLoad      -- dataFacade.Load(m_container)
  | facadeClear     -- dataFacade.Clear()
  | mappingMap      -- mapping.Map(m_container)
  | mappingUnmap    -- mapping.Unmap()
  | mappingClear    -- mapping.Clear()
  | containerClose  -- m_container.Close()
  deriving DecidableEq

/-- Modelled from the spec: the class `OsrmDataFacade` (osrm_data_facade.hpp) is
not part of the header; the search data is either loaded or not. -/
structure DataFacadeT where
  loaded : Bool
  deriving DecidableEq

/-- Modelled from the spec: the class `OsrmFtSegMapping` (osrm2feature_map.hpp)
is not part of the header; the segment mapping is either resident or not. -/
structure OsrmFtSegMapping where
  mapped : Bool
  deriving DecidableEq

/-- Modelled from the spec: the class `FilesMappingContainer` is not part of the
header; the backing container is either open or closed. -/
structure FilesMappingContainer where
  isOpen : Bool
  deriving DecidableEq

/-- Modelled from the spec: `DataFacadeT::Load` makes the search data loaded. -/
def DataFacadeT.Load (_f : DataFacadeT) (_c : FilesMappingContainer) : DataFacadeT :=
  { loaded := true }

/-- Modelled from the spec: `DataFacadeT::Clear` releases the search data. -/
def DataFacadeT.Clear (_f : DataFacadeT) : DataFacadeT :=
  { loaded := false }

/-- Modelled from the spec: `OsrmFtSegMapping::IsMapped`. -/
def OsrmFtSegMapping.IsMapped (m : OsrmFtSegMapping) : Bool := m.mapped

/-- Modelled from the spec: `OsrmFtSegMapping::Map` makes the mapping resident. -/
def OsrmFtSegMapping.Map (_m : OsrmFtSegMapping) (_c : FilesMappingContainer) :
    OsrmFtSegMapping :=
  { mapped := true }

/-- Modelled from the spec: `OsrmFtSegMapping::Unmap` drops the mapping. -/
def OsrmFtSegMapping.Unmap (_m : OsrmFtSegMapping) : OsrmFtSegMapping :=
  { mapped := false }

/-- Modelled from the spec: `OsrmFtSegMapping::Clear` drops the mapping. -/
def OsrmFtSegMapping.Clear (_m : OsrmFtSegMapping) : OsrmFtSegMapping :=
  { mapped := false }

/-- Modelled from the spec: `FilesMappingContainer::Close`. -/
def FilesMappingContainer.Close (_c : FilesMappingContainer) : FilesMappingContainer :=
  { isOpen := false }

/-! ## `struct RoutingMapping` -/

/-- The members of `struct RoutingMapping`, in declaration order, followed by
the ghost log `calls` of the calls made into the members. -/
structure RoutingMapping where
  dataFacade : DataFacadeT
  mapping : OsrmFtSegMapping
  map_counter : Nat
  facade_counter : Nat
  m_base_name : String
  m_container : FilesMappingContainer
  m_mwmId : Nat
  calls : List Call
  deriving DecidableEq

namespace RoutingMapping

/-- `void Map()`:
```
++map_counter;
if (!mapping.IsMapped())
  mapping.Map(m_container);
``` -/
def Map (w : Nat) (s : RoutingMapping) : RoutingMapping :=
  let s1 := { s with map_counter := incr w s.map_counter }
  if !s1.mapping.IsMapped then
    { s1 with mapping := s1.mapping.Map s1.m_container,
              calls := s1.calls ++ [Call.mappingMap] }
  else s1

/-- `void Unmap()`:
```
--map_counter;
if (map_counter<1 && mapping.IsMapped())
  mapping.Unmap();
``` -/
def Unmap (w : Nat) (s : RoutingMapping) : RoutingMapping :=
  let s1 := { s with map_counter := decr w s.map_counter }
  if decide (s1.map_counter < 1) && s1.mapping.IsMapped then
    { s1 with mapping := s1.mapping.Unmap,
              calls := s1.calls ++ [Call.mappingUnmap] }
  else s1

/-- `void LoadFacade()`:
```
if (!facade_counter)
  dataFacade.Load(m_container);
++facade_counter;
``` -/
def LoadFacade (w : Nat) (s : RoutingMapping) : RoutingMapping :=
  let s1 :=
    if s.facade_counter = 0 then
      { s with dataFacade := s.dataFacade.Load s.m_container,
               calls := s.calls ++ [Call.facadeLoad] }
    else s
  { s1 with facade_counter := incr w s1.facade_counter }

/-- `void FreeFacade()`:
```
--facade_counter;
if (!facade_counter)
  dataFacade.Clear();
``` -/
def FreeFacade (w : Nat) (s : RoutingMapping) : RoutingMapping :=
  let s1 := { s with facade_counter := decr w s.facade_counter }
  if s1.facade_counter = 0 then
    { s1 with dataFacade := s1.dataFacade.Clear,
              calls := s1.calls ++ [Call.facadeClear] }
  else s1

/-- The destructor `~RoutingMapping()`:
```
// Clear data while m_container is valid.
dataFacade.Clear();
mapping.Clear();
m_container.Close();
```
The result is the state of the members when the body has run. -/
def destroy (s : RoutingMapping) : RoutingMapping :=
  let s1 := { s with dataFacade := s.dataFacade.Clear,
                     calls := s.calls ++ [Call.facadeClear] }
  let s2 := { s1 with mapping := s1.mapping.Clear,
                      calls := s1.calls ++ [Call.mappingClear] }
  { s2 with m_container := s2.m_container.Close,
            calls := s2.calls ++ [Call.containerClose] }

/-- `string GetName()`. -/
def GetName (s : RoutingMapping) : String := s.m_base_name

/-- `Index::MwmId GetMwmId()`. -/
def GetMwmId (s : RoutingMapping) : Nat := s.m_mwmId

end RoutingMapping

/-- A `RoutingMapping` whose counters are zero and whose mapping and facade
are absent: the state both reference-count disciplines start from. -/
def freshMapping (name : String) (mwmId : Nat) : RoutingMapping :=
  { dataFacade := { loaded := false },
    mapping := { mapped := false },
    map_counter := 0,
    facade_counter := 0,
    m_base_name := name,
    m_container := { isOpen := true },
    m_mwmId := mwmId,
    calls := [] }

/-- The segment mapping is resident iff `map_counter > 0`. -/
def MapInv (s : RoutingMapping) : Prop :=
  s.mapping.IsMapped = true ↔ 0 < s.map_counter

/-- The search-data facade is loaded iff `facade_counter > 0`. -/
def FacadeInv (s : RoutingMapping) : Prop :=
  s.dataFacade.loaded = true ↔ 0 < s.facade_counter

instance (s : RoutingMapping) : Decidable (MapInv s) :=
  inferInstanceAs (Decidable (s.mapping.IsMapped = true ↔ 0 < s.map_counter))

instance (s : RoutingMapping) : Decidable (FacadeInv s) :=
  inferInstanceAs (Decidable (s.dataFacade.loaded = true ↔ 0 < s.facade_counter))

/-! ## Acquire / release sequences -/

/-- One step of a reference-count discipline. -/
inductive Op where
  | acquire
  | release
  deriving DecidableEq

/-- An acquire is `Map()`, a release is `Unmap()`. -/
def applyMapOp (w : Nat) : Op → RoutingMapping → RoutingMapping
  | Op.acquire, s => s.Map w
  | Op.release, s => s.Unmap w

/-- An acquire is `LoadFacade()`, a release is `FreeFacade()`. -/
def applyFacadeOp (w : Nat) : Op → RoutingMapping → RoutingMapping
  | Op.acquire, s => s.LoadFacade w
  | Op.release, s => s.FreeFacade w

/-- The calls of `ops` made one after the other through `Map()`/`Unmap()`. -/
def runMap (w : Nat) : List Op → RoutingMapping → RoutingMapping
  | [], s => s
  | o :: ops, s => runMap w ops (applyMapOp w o s)

/-- The calls of `ops` made one after the other through
`LoadFacade()`/`FreeFacade()`. -/
def runFacade (w : Nat) : List Op → RoutingMapping → RoutingMapping
  | [], s => s
  | o :: ops, s => runFacade w ops (applyFacadeOp w o s)

/-- No initial segment of `ops` has more releases than acquires. -/
def NoExcessRelease (ops : List Op) : Prop :=
  ∀ n, (ops.take n).count Op.release ≤ (ops.take n).count Op.acquire

/-- In every initial segment of `ops` fewer than `2 ^ w` acquires are
outstanding, so that a counter of width `w` can hold their number. -/
def OutstandingBelow (w : Nat) (ops : List Op) : Prop :=
  ∀ n, (ops.take n).count Op.acquire < (ops.take n).count Op.release + 2 ^ w

/-- What is observed of one step: the operation, the counter before and after
it, and the calls into the members made during it. -/
structure StepObs where
  op : Op
  before : Nat
  after : Nat
  calls : List Call
  deriving DecidableEq

/-- The calls logged between state `s` and the later state `t`. -/
def newCalls (s t : RoutingMapping) : List Call :=
  t.calls.drop s.calls.length

/-- The observations of a run through `Map()`/`Unmap()`, one per step. -/
def observeMap (w : Nat) : List Op → RoutingMapping → List StepObs
  | [], _ => []
  | o :: ops, s =>
    let t := applyMapOp w o s
    { op := o, before := s.map_counter, after := t.map_counter, calls := newCalls s t }
      :: observeMap w ops t

/-- The observations of a run through `LoadFacade()`/`FreeFacade()`, one per
step. -/
def observeFacade (w : Nat) : List Op → RoutingMapping → List StepObs
  | [], _ => []
  | o :: ops, s =>
    let t := applyFacadeOp w o s
    { op := o, before := s.facade_counter, after := t.facade_counter, calls := newCalls s t }
      :: observeFacade w ops t

/-- The discipline in the words of the specification: an acquire invokes `up`
exactly when it takes the count from 0 to 1, a release invokes `down` exactly
when it takes the count from 1 to 0, and nothing else is invoked. -/
def boundaryCalls (up down : Call) (o : Op) (before after : Nat) : List Call :=
  match o with
  | Op.acquire => if before = 0 ∧ after = 1 then [up] else []
  | Op.release => if before = 1 ∧ after = 0 then [down] else []

/-- The facade call that corresponds to a mapping call. -/
def facadeCallOf : Call → Call
  | Call.mappingMap => Call.facadeLoad
  | Call.mappingUnmap => Call.facadeClear
  | c => c

/-- The step observed on the facade side that corresponds to a step observed
on the mapping side. -/
def facadeObsOf (o : StepObs) : StepObs :=
  { o with calls := o.calls.map facadeCallOf }

/-! ## `class RoutingIndexManager` -/

/-- A `shared_ptr<RoutingMapping>`: the index of the object among the objects
constructed so far by `new RoutingMapping`. -/
abbrev RoutingMappingPtrT := Nat

/-- `std::map::find` on a `std::map<string, RoutingMappingPtrT>`, held as the
list of its entries in key order. -/
def mapFind : List (String × RoutingMappingPtrT) → String → Option RoutingMappingPtrT
  | [], _ => none
  | (k, v) :: r, x => if k = x then some v else mapFind r x

/-- `std::map::insert`: the entry is put at its place in key order; an entry
whose key is already present is neither replaced nor duplicated. -/
def mapInsert : List (String × RoutingMappingPtrT) → String × RoutingMappingPtrT →
    List (String × RoutingMappingPtrT)
  | [], kv => [kv]
  | (k, v) :: r, kv =>
    if kv.1 < k then kv :: (k, v) :: r
    else if k < kv.1 then (k, v) :: mapInsert r kv
    else (k, v) :: r

/-- The members of `class RoutingIndexManager`.  `Point` stands for
`m2::PointD`. -/
structure RoutingIndexManager (Point : Type) where
  m_countryFn : Point → String
  m_mapping : List (String × RoutingMappingPtrT)

/-- The result of `GetMappingByPoint`: the returned handle, the manager and the
constructed objects after the call. -/
structure Resolved (Point : Type) where
  handle : RoutingMappingPtrT
  manager : RoutingIndexManager Point
  objects : List RoutingMapping

/-- `RoutingMappingPtrT GetMappingByPoint(m2::PointD point, Index const * pIndex)`:
```
string fName = m_countryFn(point);
auto mapIter = m_mapping.find(fName);
if (mapIter != m_mapping.end())
  return mapIter->second;
RoutingMappingPtrT new_mapping = RoutingMappingPtrT(new RoutingMapping(fName, pIndex));
m_mapping.insert(std::make_pair(fName, new_mapping));
return new_mapping;
```
The constructor `RoutingMapping(fName, pIndex)` is defined outside the header
and is the parameter `ctor`; `objects` are the objects constructed so far. -/
def RoutingIndexManager.GetMappingByPoint {Point Idx : Type}
    (ctor : String → Idx → RoutingMapping) (m : RoutingIndexManager Point)
    (objects : List RoutingMapping) (point : Point) (pIndex : Idx) : Resolved Point :=
  let fName := m.m_countryFn point
  match mapFind m.m_mapping fName with
  | some h => { handle := h, manager := m, objects := objects }
  | none =>
    let new_mapping := objects.length
    { handle := new_mapping,
      manager := { m with m_mapping := mapInsert m.m_mapping (fName, new_mapping) },
      objects := objects ++ [ctor fName pIndex] }

/-- `void Clear()`: `m_mapping.clear();` -/
def RoutingIndexManager.Clear {Point : Type} (m : RoutingIndexManager Point) :
    RoutingIndexManager Point :=
  { m with m_mapping := [] }

/-! ## Concrete states and managers used in the examples -/

/-- A resident mapping whose `map_counter` is `SIZE_MAX` on a 64-bit `size_t`. -/
def saturatedMapping : RoutingMapping :=
  { freshMapping "tile" 0 with map_counter := 2 ^ 64 - 1, mapping := { mapped := true } }

/-- A loaded facade whose `facade_counter` is `SIZE_MAX` on a 64-bit `size_t`. -/
def saturatedFacade : RoutingMapping :=
  { freshMapping "tile" 0 with facade_counter := 2 ^ 64 - 1, dataFacade := { loaded := true } }

/-- A point-to-file function on points `0, 1, 2, ...`: the points below 10 lie
in tile "A", the others in tile "B". -/
def demoCountryFn (p : Nat) : String := if p < 10 then "A" else "B"

/-- A constructor for the examples. -/
def demoCtor (name : String) (_pIndex : Unit) : RoutingMapping := freshMapping name 0

/-- A manager that has resolved tile "A" once. -/
def demoManager : RoutingIndexManager Nat :=
  { m_countryFn := demoCountryFn, m_mapping := [("A", 0)] }

/-- The objects constructed so far for `demoManager`. -/
def demoObjects : List RoutingMapping := [freshMapping "A" 0]

/-! # Theorems -/

/-! ## Single steps -/

theorem incr_of_lt {w c : Nat} (h : c + 1 < 2 ^ w) : incr w c = c + 1 := by
  unfold incr
  exact Nat.mod_eq_of_lt h

theorem decr_of_pos {w c : Nat} (h0 : 0 < c) (h : c < 2 ^ w) : decr w c = c - 1 := by
  unfold decr
  have e : c + (2 ^ w - 1) = (c - 1) + 2 ^ w := by omega
  rw [e, Nat.add_mod_right]
  exact Nat.mod_eq_of_lt (by omega)

theorem decr_zero (w : Nat) : decr w 0 = 2 ^ w - 1 := by
  unfold decr
  have : 0 < 2 ^ w := Nat.two_pow_pos w
  rw [Nat.zero_add]
  exact Nat.mod_eq_of_lt (by omega)

theorem Map_counter (w : Nat) (s : RoutingMapping) :
    (s.Map w).map_counter = incr w s.map_counter := by
  simp only [RoutingMapping.Map]
  split <;> rfl

theorem Map_mapped (w : Nat) (s : RoutingMapping) :
    (s.Map w).mapping.IsMapped = true := by
  simp only [RoutingMapping.Map]
  split <;> simp_all [OsrmFtSegMapping.IsMapped, OsrmFtSegMapping.Map]

theorem Unmap_counter (w : Nat) (s : RoutingMapping) :
    (s.Unmap w).map_counter = decr w s.map_counter := by
  simp only [RoutingMapping.Unmap]
  split <;> rfl

theorem Unmap_mapped (w : Nat) (s : RoutingMapping) :
    (s.Unmap w).mapping.IsMapped =
      (if decr w s.map_counter = 0 then false else s.mapping.IsMapped) := by
  unfold RoutingMapping.Unmap
  by_cases h : decr w s.map_counter = 0
  · cases hm : s.mapping.mapped <;>
      simp [h, hm, OsrmFtSegMapping.IsMapped, OsrmFtSegMapping.Unmap]
  · have h1 : ¬ decr w s.map_counter < 1 := by omega
    simp [h, h1]

theorem LoadFacade_counter (w : Nat) (s : RoutingMapping) :
    (s.LoadFacade w).facade_counter = incr w s.facade_counter := by
  simp only [RoutingMapping.LoadFacade]
  split <;> rfl

theorem LoadFacade_loaded (w : Nat) (s : RoutingMapping) :
    (s.LoadFacade w).dataFacade.loaded =
      (if s.facade_counter = 0 then true else s.dataFacade.loaded) := by
  simp only [RoutingMapping.LoadFacade]
  split <;> simp [DataFacadeT.Load]

theorem FreeFacade_counter (w : Nat) (s : RoutingMapping) :
    (s.FreeFacade w).facade_counter = decr w s.facade_counter := by
  simp only [RoutingMapping.FreeFacade]
  split <;> rfl

theorem FreeFacade_loaded (w : Nat) (s : RoutingMapping) :
    (s.FreeFacade w).dataFacade.loaded =
      (if decr w s.facade_counter = 0 then false else s.dataFacade.loaded) := by
  unfold RoutingMapping.FreeFacade
  by_cases h : decr w s.facade_counter = 0 <;> simp [h, DataFacadeT.Clear]

/-! ## The invariants along a run -/

theorem Map_keeps_inv {w : Nat} {s : RoutingMapping} (h : s.map_counter + 1 < 2 ^ w) :
    MapInv (s.Map w) := by
  unfold MapInv
  rw [Map_mapped, Map_counter, incr_of_lt h]
  simp

theorem Unmap_keeps_inv {w : Nat} {s : RoutingMapping} (hinv : MapInv s)
    (h : 0 < s.map_counter) : MapInv (s.Unmap w) := by
  unfold MapInv at *
  rw [Unmap_mapped, Unmap_counter]
  by_cases h0 : decr w s.map_counter = 0
  · simp [h0]
  · simp only [h0, if_false]
    constructor
    · intro _; omega
    · intro _; exact hinv.mpr h

theorem LoadFacade_keeps_inv {w : Nat} {s : RoutingMapping} (hinv : FacadeInv s)
    (h : s.facade_counter + 1 < 2 ^ w) : FacadeInv (s.LoadFacade w) := by
  unfold FacadeInv at *
  rw [LoadFacade_loaded, LoadFacade_counter, incr_of_lt h]
  by_cases h0 : s.facade_counter = 0
  · simp [h0]
  · simp only [h0, if_false]
    constructor
    · intro _; omega
    · intro _; exact hinv.mpr (by omega)

theorem FreeFacade_keeps_inv {w : Nat} {s : RoutingMapping} (hinv : FacadeInv s)
    (h : 0 < s.facade_counter) : FacadeInv (s.FreeFacade w) := by
  unfold FacadeInv at *
  rw [FreeFacade_loaded, FreeFacade_counter]
  by_cases h0 : decr w s.facade_counter = 0
  · simp [h0]
  · simp only [h0, if_false]
    constructor
    · intro _; omega
    · intro _; exact hinv.mpr h

/-- Along a run through `Map()`/`Unmap()` that starts with count `c`, never
releases below zero and never holds `2 ^ w` acquires, the invariant is kept and
the counter is the number of outstanding acquires. -/
theorem runMap_keeps_inv (w : Nat) : ∀ (ops : List Op) (s : RoutingMapping),
    MapInv s →
    (∀ n, (ops.take n).count Op.release ≤ s.map_counter + (ops.take n).count Op.acquire) →
    (∀ n, s.map_counter + (ops.take n).count Op.acquire
        < (ops.take n).count Op.release + 2 ^ w) →
    MapInv (runMap w ops s) ∧
      (runMap w ops s).map_counter + ops.count Op.release
        = s.map_counter + ops.count Op.acquire := by
  intro ops
  induction ops with
  | nil => intro s hinv _ _; exact ⟨hinv, rfl⟩
  | cons o ops ih =>
    intro s hinv h1 h2
    cases o with
    | acquire =>
      have hlt : s.map_counter + 1 < 2 ^ w := by
        have := h2 1
        simpa using this
      have hc : (s.Map w).map_counter = s.map_counter + 1 := by
        rw [Map_counter, incr_of_lt hlt]
      have := ih (s.Map w) (Map_keeps_inv hlt)
        (by
          intro n
          have := h1 (n + 1)
          simp only [List.take_succ_cons, List.count_cons] at this
          simp at this
          omega)
        (by
          intro n
          have := h2 (n + 1)
          simp only [List.take_succ_cons, List.count_cons] at this
          simp at this
          omega)
      refine ⟨this.1, ?_⟩
      have e := this.2
      simp only [runMap, applyMapOp, List.count_cons]
      simp
      omega
    | release =>
      have hpos : 0 < s.map_counter := by
        have := h1 1
        simp at this
        omega
      have hlt : s.map_counter < 2 ^ w := by
        have := h2 0
        simpa using this
      have hc : (s.Unmap w).map_counter = s.map_counter - 1 := by
        rw [Unmap_counter, decr_of_pos hpos hlt]
      have := ih (s.Unmap w) (Unmap_keeps_inv hinv hpos)
        (by
          intro n
          have := h1 (n + 1)
          simp only [List.take_succ_cons, List.count_cons] at this
          simp at this
          omega)
        (by
          intro n
          have := h2 (n + 1)
          simp only [List.take_succ_cons, List.count_cons] at this
          simp at this
          omega)
      refine ⟨this.1, ?_⟩
      have e := this.2
      simp only [runMap, applyMapOp, List.count_cons]
      simp
      omega

/-- Along a run through `LoadFacade()`/`FreeFacade()` that starts with count
`c`, never releases below zero and never holds `2 ^ w` acquires, the invariant
is kept and the counter is the number of outstanding acquires. -/
theorem runFacade_keeps_inv (w : Nat) : ∀ (ops : List Op) (s : RoutingMapping),
    FacadeInv s →
    (∀ n, (ops.take n).count Op.release ≤ s.facade_counter + (ops.take n).count Op.acquire) →
    (∀ n, s.facade_counter + (ops.take n).count Op.acquire
        < (ops.take n).count Op.release + 2 ^ w) →
    FacadeInv (runFacade w ops s) ∧
      (runFacade w ops s).facade_counter + ops.count Op.release
        = s.facade_counter + ops.count Op.acquire := by
  intro ops
  induction ops with
  | nil => intro s hinv _ _; exact ⟨hinv, rfl⟩
  | cons o ops ih =>
    intro s hinv h1 h2
    cases o with
    | acquire =>
      have hlt : s.facade_counter + 1 < 2 ^ w := by
        have := h2 1
        simpa using this
      have hc : (s.LoadFacade w).facade_counter = s.facade_counter + 1 := by
        rw [LoadFacade_counter, incr_of_lt hlt]
      have := ih (s.LoadFacade w) (LoadFacade_keeps_inv hinv hlt)
        (by
          intro n
          have := h1 (n + 1)
          simp only [List.take_succ_cons, List.count_cons] at this
          simp at this
          omega)
        (by
          intro n
          have := h2 (n + 1)
          simp only [List.take_succ_cons, List.count_cons] at this
          simp at this
          omega)
      refine ⟨this.1, ?_⟩
      have e := this.2
      simp only [runFacade, applyFacadeOp, List.count_cons]
      simp
      omega
    | release =>
      have hpos : 0 < s.facade_counter := by
        have := h1 1
        simp at this
        omega
      have hlt : s.facade_counter < 2 ^ w := by
        have := h2 0
        simpa using this
      have hc : (s.FreeFacade w).facade_counter = s.facade_counter - 1 := by
        rw [FreeFacade_counter, decr_of_pos hpos hlt]
      have := ih (s.FreeFacade w) (FreeFacade_keeps_inv hinv hpos)
        (by
          intro n
          have := h1 (n + 1)
          simp only [List.take_succ_cons, List.count_cons] at this
          simp at this
          omega)
        (by
          intro n
          have := h2 (n + 1)
          simp only [List.take_succ_cons, List.count_cons] at this
          simp at this
          omega)
      refine ⟨this.1, ?_⟩
      have e := this.2
      simp only [runFacade, applyFacadeOp, List.count_cons]
      simp
      omega

/-! ## Runs of acquires only -/

theorem noExcessRelease_replicate (n : Nat) :
    NoExcessRelease (List.replicate n Op.acquire) := by
  intro k
  rw [List.take_replicate, List.count_replicate]
  simp

theorem runMap_replicate_acquire (w : Nat) : ∀ (n : Nat) (s : RoutingMapping), 0 < n →
    (runMap w (List.replicate n Op.acquire) s).map_counter = (s.map_counter + n) % 2 ^ w ∧
      (runMap w (List.replicate n Op.acquire) s).mapping.IsMapped = true := by
  intro n
  induction n with
  | zero => intro s h; omega
  | succ n ih =>
    intro s _
    rw [List.replicate_succ]
    show (runMap w (List.replicate n Op.acquire) (s.Map w)).map_counter = _ ∧
      (runMap w (List.replicate n Op.acquire) (s.Map w)).mapping.IsMapped = true
    rcases Nat.eq_zero_or_pos n with h0 | hpos
    · subst h0
      exact ⟨Map_counter w s, Map_mapped w s⟩
    · obtain ⟨h1, h2⟩ := ih (s.Map w) hpos
      refine ⟨?_, h2⟩
      rw [h1, Map_counter]
      unfold incr
      rw [Nat.mod_add_mod, Nat.add_assoc, Nat.add_comm 1 n]

theorem runFacade_replicate_acquire (w : Nat) : ∀ (n : Nat) (s : RoutingMapping), 0 < n →
    (runFacade w (List.replicate n Op.acquire) s).facade_counter
      = (s.facade_counter + n) % 2 ^ w := by
  intro n
  induction n with
  | zero => intro s h; omega
  | succ n ih =>
    intro s _
    rw [List.replicate_succ]
    show (runFacade w (List.replicate n Op.acquire) (s.LoadFacade w)).facade_counter = _
    rcases Nat.eq_zero_or_pos n with h0 | hpos
    · subst h0
      exact LoadFacade_counter w s
    · rw [ih (s.LoadFacade w) hpos, LoadFacade_counter]
      unfold incr
      rw [Nat.mod_add_mod, Nat.add_assoc, Nat.add_comm 1 n]

/-! ## C1, C2 : the two count invariants -/

theorem mapInv_fresh (name : String) (mwmId : Nat) : MapInv (freshMapping name mwmId) := by
  simp [MapInv, freshMapping, OsrmFtSegMapping.IsMapped]

theorem facadeInv_fresh (name : String) (mwmId : Nat) :
    FacadeInv (freshMapping name mwmId) := by
  simp [FacadeInv, freshMapping]

theorem not_mapInv_of (t : RoutingMapping) (hm : t.mapping.IsMapped = true)
    (hc : t.map_counter = 0) : ¬ MapInv t := by
  intro hinv
  have := hinv.mp hm
  omega

theorem not_facadeInv_of (t : RoutingMapping) (hl : t.dataFacade.loaded = true)
    (hc : t.facade_counter = 0) : ¬ FacadeInv t := by
  intro hinv
  have := hinv.mp hl
  omega

/-- C1, as stated, fails: at `map_counter = 2 ^ 64 - 1` with the mapping
resident the invariant holds, and `Map()` wraps the counter to 0 while the
mapping stays resident; likewise `2 ^ 64` calls of `Map()` from the fresh
state, a sequence without any `Unmap()`, end with the mapping resident and
`map_counter = 0`. -/
theorem map_invariant_lost_on_wrap :
    (MapInv saturatedMapping ∧ ¬ MapInv (saturatedMapping.Map 64)) ∧
    (NoExcessRelease (List.replicate (2 ^ 64) Op.acquire) ∧
      ¬ MapInv (runMap 64 (List.replicate (2 ^ 64) Op.acquire) (freshMapping "tile" 0))) := by
  refine ⟨⟨by decide, by decide⟩, noExcessRelease_replicate _, ?_⟩
  have hpos : 0 < 2 ^ 64 := by norm_num
  obtain ⟨h1, h2⟩ := runMap_replicate_acquire 64 (2 ^ 64) (freshMapping "tile" 0) hpos
  have e : ((freshMapping "tile" 0).map_counter + 2 ^ 64) % 2 ^ 64 = 0 := by
    show (0 + 2 ^ 64) % 2 ^ 64 = 0
    norm_num
  exact not_mapInv_of
    (runMap 64 (List.replicate (2 ^ 64) Op.acquire) (freshMapping "tile" 0)) h2 (h1.trans e)

/-- C1, amended: `Map()` keeps "resident iff `map_counter > 0`" whenever
`map_counter` is below `2 ^ w - 1` before the call, `Unmap()` keeps it whenever
`map_counter > 0` before the call, and after every sequence of calls from the
fresh state in which no initial segment has more `Unmap` than `Map` calls and
fewer than `2 ^ w` `Map` calls are ever outstanding, the mapping is resident
iff `map_counter > 0`. -/
theorem map_count_invariant (w : Nat) :
    (∀ s : RoutingMapping, MapInv s → s.map_counter + 1 < 2 ^ w → MapInv (s.Map w)) ∧
    (∀ s : RoutingMapping, MapInv s → 0 < s.map_counter → MapInv (s.Unmap w)) ∧
    (∀ (ops : List Op) (name : String) (mwmId : Nat),
      NoExcessRelease ops → OutstandingBelow w ops →
        MapInv (runMap w ops (freshMapping name mwmId))) := by
  refine ⟨fun s _ h => Map_keeps_inv h, fun s hinv h => Unmap_keeps_inv hinv h, ?_⟩
  intro ops name mwmId h1 h2
  refine (runMap_keeps_inv w ops (freshMapping name mwmId) (mapInv_fresh name mwmId) ?_ ?_).1
  · intro n
    have := h1 n
    show _ ≤ 0 + _
    omega
  · intro n
    have := h2 n
    show 0 + _ < _
    omega

/-- C1, amended, at concrete inputs: the fresh state, the state after one `Map()`,
and the sequence acquire, acquire, release on a 64-bit `size_t`. -/
theorem map_count_invariant_witness :
    (MapInv (freshMapping "tile" 0) ∧ (freshMapping "tile" 0).map_counter + 1 < 2 ^ 64 ∧
      MapInv ((freshMapping "tile" 0).Map 64)) ∧
    (MapInv ((freshMapping "tile" 0).Map 64) ∧ 0 < ((freshMapping "tile" 0).Map 64).map_counter ∧
      MapInv (((freshMapping "tile" 0).Map 64).Unmap 64)) ∧
    (NoExcessRelease [Op.acquire, Op.acquire, Op.release] ∧
      OutstandingBelow 64 [Op.acquire, Op.acquire, Op.release] ∧
      MapInv (runMap 64 [Op.acquire, Op.acquire, Op.release] (freshMapping "tile" 0))) :=
  have hn : NoExcessRelease [Op.acquire, Op.acquire, Op.release] := by
    intro n
    match n with
    | 0 | 1 | 2 | n + 3 => simp
  have hb : OutstandingBelow 64 [Op.acquire, Op.acquire, Op.release] := by
    intro n
    match n with
    | 0 | 1 | 2 | n + 3 => simp
  ⟨⟨by decide, by decide,
      (map_count_invariant 64).1 (freshMapping "tile" 0) (by decide) (by decide)⟩,
    ⟨by decide, by decide,
      (map_count_invariant 64).2.1 ((freshMapping "tile" 0).Map 64) (by decide) (by decide)⟩,
    ⟨hn, hb, (map_count_invariant 64).2.2 _ "tile" 0 hn hb⟩⟩

theorem runFacade_replicate_loaded (w : Nat) : ∀ (n : Nat) (s : RoutingMapping), 0 < n →
    (s.facade_counter = 0 ∨ s.dataFacade.loaded = true) →
    (runFacade w (List.replicate n Op.acquire) s).dataFacade.loaded = true := by
  intro n
  induction n with
  | zero => intro s h; omega
  | succ n ih =>
    intro s _ hs
    rw [List.replicate_succ]
    show (runFacade w (List.replicate n Op.acquire) (s.LoadFacade w)).dataFacade.loaded = true
    have hl : (s.LoadFacade w).dataFacade.loaded = true := by
      rw [LoadFacade_loaded]
      rcases hs with h | h
      · simp [h]
      · simp [h]
    rcases Nat.eq_zero_or_pos n with h0 | hpos
    · subst h0
      exact hl
    · exact ih (s.LoadFacade w) hpos (Or.inr hl)

/-- C2, as stated, fails: at `facade_counter = 2 ^ 64 - 1` with the facade
loaded the invariant holds, and `LoadFacade()` wraps the counter to 0 while the
facade stays loaded; likewise `2 ^ 64` calls of `LoadFacade()` from the fresh
state, a sequence without any `FreeFacade()`, end with the facade loaded and
`facade_counter = 0`. -/
theorem facade_invariant_lost_on_wrap :
    (FacadeInv saturatedFacade ∧ ¬ FacadeInv (saturatedFacade.LoadFacade 64)) ∧
    (NoExcessRelease (List.replicate (2 ^ 64) Op.acquire) ∧
      ¬ FacadeInv
        (runFacade 64 (List.replicate (2 ^ 64) Op.acquire) (freshMapping "tile" 0))) := by
  refine ⟨⟨by decide, by decide⟩, noExcessRelease_replicate _, ?_⟩
  have hpos : 0 < 2 ^ 64 := by norm_num
  have h1 := runFacade_replicate_acquire 64 (2 ^ 64) (freshMapping "tile" 0) hpos
  have h2 := runFacade_replicate_loaded 64 (2 ^ 64) (freshMapping "tile" 0) hpos (Or.inl rfl)
  have e : ((freshMapping "tile" 0).facade_counter + 2 ^ 64) % 2 ^ 64 = 0 := by
    show (0 + 2 ^ 64) % 2 ^ 64 = 0
    norm_num
  exact not_facadeInv_of
    (runFacade 64 (List.replicate (2 ^ 64) Op.acquire) (freshMapping "tile" 0)) h2 (h1.trans e)

/-- C2, amended: `LoadFacade()` keeps "loaded iff `facade_counter > 0`"
whenever `facade_counter` is below `2 ^ w - 1` before the call, `FreeFacade()`
keeps it whenever `facade_counter > 0` before the call, and after every
sequence of calls from the fresh state in which no initial segment has more
`FreeFacade` than `LoadFacade` calls and fewer than `2 ^ w` `LoadFacade` calls
are ever outstanding, the facade is loaded iff `facade_counter > 0`. -/
theorem facade_count_invariant (w : Nat) :
    (∀ s : RoutingMapping, FacadeInv s → s.facade_counter + 1 < 2 ^ w →
      FacadeInv (s.LoadFacade w)) ∧
    (∀ s : RoutingMapping, FacadeInv s → 0 < s.facade_counter → FacadeInv (s.FreeFacade w)) ∧
    (∀ (ops : List Op) (name : String) (mwmId : Nat),
      NoExcessRelease ops → OutstandingBelow w ops →
        FacadeInv (runFacade w ops (freshMapping name mwmId))) := by
  refine ⟨fun s hinv h => LoadFacade_keeps_inv hinv h,
    fun s hinv h => FreeFacade_keeps_inv hinv h, ?_⟩
  intro ops name mwmId h1 h2
  refine (runFacade_keeps_inv w ops (freshMapping name mwmId) (facadeInv_fresh name mwmId)
    ?_ ?_).1
  · intro n
    have := h1 n
    show _ ≤ 0 + _
    omega
  · intro n
    have := h2 n
    show 0 + _ < _
    omega

/-- C2, amended, at concrete inputs: the fresh state, the state after one
`LoadFacade()`, and the sequence acquire, release, acquire on a 64-bit `size_t`. -/
theorem facade_count_invariant_witness :
    (FacadeInv (freshMapping "tile" 0) ∧ (freshMapping "tile" 0).facade_counter + 1 < 2 ^ 64 ∧
      FacadeInv ((freshMapping "tile" 0).LoadFacade 64)) ∧
    (FacadeInv ((freshMapping "tile" 0).LoadFacade 64) ∧
      0 < ((freshMapping "tile" 0).LoadFacade 64).facade_counter ∧
      FacadeInv (((freshMapping "tile" 0).LoadFacade 64).FreeFacade 64)) ∧
    (NoExcessRelease [Op.acquire, Op.release, Op.acquire] ∧
      OutstandingBelow 64 [Op.acquire, Op.release, Op.acquire] ∧
      FacadeInv (runFacade 64 [Op.acquire, Op.release, Op.acquire] (freshMapping "tile" 0))) :=
  have hn : NoExcessRelease [Op.acquire, Op.release, Op.acquire] := by
    intro n
    match n with
    | 0 | 1 | 2 | n + 3 => simp
  have hb : OutstandingBelow 64 [Op.acquire, Op.release, Op.acquire] := by
    intro n
    match n with
    | 0 | 1 | 2 | n + 3 => simp
  ⟨⟨by decide, by decide,
      (facade_count_invariant 64).1 (freshMapping "tile" 0) (by decide) (by decide)⟩,
    ⟨by decide, by decide,
      (facade_count_invariant 64).2.1 ((freshMapping "tile" 0).LoadFacade 64)
        (by decide) (by decide)⟩,
    ⟨hn, hb, (facade_count_invariant 64).2.2 _ "tile" 0 hn hb⟩⟩

/-! ## Calls logged by a single step -/

theorem incr_max (w : Nat) : incr w (2 ^ w - 1) = 0 := by
  unfold incr
  have : 0 < 2 ^ w := Nat.two_pow_pos w
  have e : 2 ^ w - 1 + 1 = 2 ^ w := by omega
  rw [e, Nat.mod_self]

theorem one_lt_two_pow {w : Nat} (hw : 0 < w) : 1 < 2 ^ w :=
  Nat.one_lt_two_pow (by omega)

theorem newCalls_self (s : RoutingMapping) : newCalls s s = [] := by
  simp [newCalls]

theorem newCalls_Map (w : Nat) (s : RoutingMapping) :
    newCalls s (s.Map w) = if s.mapping.IsMapped = true then [] else [Call.mappingMap] := by
  simp only [newCalls, RoutingMapping.Map]
  cases h : s.mapping.IsMapped <;> simp [h]

theorem newCalls_Unmap (w : Nat) (s : RoutingMapping) :
    newCalls s (s.Unmap w) =
      if decr w s.map_counter = 0 ∧ s.mapping.IsMapped = true then [Call.mappingUnmap]
      else [] := by
  simp only [newCalls, RoutingMapping.Unmap]
  by_cases h0 : decr w s.map_counter = 0
  · cases h : s.mapping.IsMapped <;> simp [h, h0]
  · have h1 : ¬ decr w s.map_counter < 1 := by omega
    simp [h0, h1]

theorem newCalls_LoadFacade (w : Nat) (s : RoutingMapping) :
    newCalls s (s.LoadFacade w) = if s.facade_counter = 0 then [Call.facadeLoad] else [] := by
  simp only [newCalls, RoutingMapping.LoadFacade]
  by_cases h0 : s.facade_counter = 0 <;> simp [h0]

theorem newCalls_FreeFacade (w : Nat) (s : RoutingMapping) :
    newCalls s (s.FreeFacade w) =
      if decr w s.facade_counter = 0 then [Call.facadeClear] else [] := by
  simp only [newCalls, RoutingMapping.FreeFacade]
  by_cases h0 : decr w s.facade_counter = 0 <;> simp [h0]

/-! ## C4 : release at count zero -/

/-- C4, as stated, fails: on a 64-bit `size_t`, `Unmap()` at `map_counter = 0`
and `FreeFacade()` at `facade_counter = 0` are carried out; the state changes
and the counter becomes `2 ^ 64 - 1`. -/
theorem release_at_zero_is_carried_out :
    ((freshMapping "tile" 0).Unmap 64 ≠ freshMapping "tile" 0 ∧
      ((freshMapping "tile" 0).Unmap 64).map_counter = 2 ^ 64 - 1) ∧
    ((freshMapping "tile" 0).FreeFacade 64 ≠ freshMapping "tile" 0 ∧
      ((freshMapping "tile" 0).FreeFacade 64).facade_counter = 2 ^ 64 - 1) := by
  decide

/-- C4, amended: `Unmap()` at `map_counter = 0` and `FreeFacade()` at
`facade_counter = 0` perform no check and report nothing; on a `size_t` of
width `w > 0` the call sets the counter to `2 ^ w - 1` and changes nothing
else, in particular it makes no call into the mapping or the facade. -/
theorem release_at_zero_wraps (w : Nat) (hw : 0 < w) (s : RoutingMapping) :
    (s.map_counter = 0 → s.Unmap w = { s with map_counter := 2 ^ w - 1 }) ∧
    (s.facade_counter = 0 → s.FreeFacade w = { s with facade_counter := 2 ^ w - 1 }) := by
  have h1 : 1 < 2 ^ w := one_lt_two_pow hw
  constructor
  · intro h
    have hd : ¬ decr w s.map_counter < 1 := by
      rw [h, decr_zero]; omega
    simp only [RoutingMapping.Unmap]
    simp only [hd, decide_False, Bool.false_and, Bool.false_eq_true, if_false]
    rw [h, decr_zero]
  · intro h
    have hd : ¬ decr w s.facade_counter = 0 := by
      rw [h, decr_zero]; omega
    simp only [RoutingMapping.FreeFacade]
    simp only [hd, if_false]
    rw [h, decr_zero]

/-- C4, amended, at the fresh state on a 64-bit `size_t`. -/
theorem release_at_zero_wraps_witness :
    0 < 64 ∧
    ((freshMapping "tile" 0).map_counter = 0 ∧
      (freshMapping "tile" 0).Unmap 64
        = { freshMapping "tile" 0 with map_counter := 2 ^ 64 - 1 }) ∧
    ((freshMapping "tile" 0).facade_counter = 0 ∧
      (freshMapping "tile" 0).FreeFacade 64
        = { freshMapping "tile" 0 with facade_counter := 2 ^ 64 - 1 }) :=
  ⟨by decide,
    ⟨rfl, (release_at_zero_wraps 64 (by decide) (freshMapping "tile" 0)).1 rfl⟩,
    ⟨rfl, (release_at_zero_wraps 64 (by decide) (freshMapping "tile" 0)).2 rfl⟩⟩

/-! ## C5 : the two counts are independent -/

/-- C5: `Map()` and `Unmap()` leave `facade_counter` and the facade unchanged,
`LoadFacade()` and `FreeFacade()` leave `map_counter` and the segment mapping
unchanged, and none of the four changes the tile name or the MwmId. -/
theorem counts_independent (w : Nat) (s : RoutingMapping) :
    ((s.Map w).facade_counter = s.facade_counter ∧ (s.Map w).dataFacade = s.dataFacade ∧
      (s.Unmap w).facade_counter = s.facade_counter ∧
      (s.Unmap w).dataFacade = s.dataFacade) ∧
    ((s.LoadFacade w).map_counter = s.map_counter ∧ (s.LoadFacade w).mapping = s.mapping ∧
      (s.FreeFacade w).map_counter = s.map_counter ∧
      (s.FreeFacade w).mapping = s.mapping) ∧
    ((s.Map w).GetName = s.GetName ∧ (s.Unmap w).GetName = s.GetName ∧
      (s.LoadFacade w).GetName = s.GetName ∧ (s.FreeFacade w).GetName = s.GetName) ∧
    ((s.Map w).GetMwmId = s.GetMwmId ∧ (s.Unmap w).GetMwmId = s.GetMwmId ∧
      (s.LoadFacade w).GetMwmId = s.GetMwmId ∧ (s.FreeFacade w).GetMwmId = s.GetMwmId) := by
  simp only [RoutingMapping.Map, RoutingMapping.Unmap, RoutingMapping.LoadFacade,
    RoutingMapping.FreeFacade, RoutingMapping.GetName, RoutingMapping.GetMwmId]
  refine ⟨⟨?_, ?_, ?_, ?_⟩, ⟨?_, ?_, ?_, ?_⟩, ⟨?_, ?_, ?_, ?_⟩, ⟨?_, ?_, ?_, ?_⟩⟩ <;>
    split <;> rfl

/-! ## C7 : teardown order -/

/-- C7: the destructor calls `dataFacade.Clear()`, then `mapping.Clear()`, then
`m_container.Close()`, each once and nothing else, whatever the two counters
are; afterwards the facade is not loaded, the mapping is not resident and the
container is closed. -/
theorem teardown_order (s : RoutingMapping) :
    s.destroy.calls = s.calls ++ [Call.facadeClear, Call.mappingClear, Call.containerClose] ∧
    newCalls s s.destroy = [Call.facadeClear, Call.mappingClear, Call.containerClose] ∧
    s.destroy.dataFacade.loaded = false ∧ s.destroy.mapping.IsMapped = false ∧
    s.destroy.m_container.isOpen = false ∧
    s.destroy.map_counter = s.map_counter ∧ s.destroy.facade_counter = s.facade_counter := by
  simp [RoutingMapping.destroy, newCalls, DataFacadeT.Clear, OsrmFtSegMapping.Clear,
    OsrmFtSegMapping.IsMapped, FilesMappingContainer.Close]

/-! ## C10 : an unbalanced release -/

/-- C10: on a `size_t` of width `w > 0`, from `facade_counter = 0` with the
facade not loaded, `FreeFacade()` sets the counter to `2 ^ w - 1` without
clearing, and a following `LoadFacade()` loads nothing and returns the counter
to 0, the facade still not loaded; from `map_counter = 0` with the mapping
absent, `Unmap()` sets the counter to `2 ^ w - 1` without unmapping and a
following `Map()` returns it to 0 with the mapping resident.  `Map()` leaves
the mapping resident from every state; `LoadFacade()` leaves the facade loaded
exactly when it was loaded before or `facade_counter` was 0. -/
theorem unbalanced_release_wraps (w : Nat) (hw : 0 < w) (s : RoutingMapping) :
    (s.facade_counter = 0 → s.dataFacade.loaded = false →
      (s.FreeFacade w).facade_counter = 2 ^ w - 1 ∧
      newCalls s (s.FreeFacade w) = [] ∧
      (s.FreeFacade w).dataFacade.loaded = false ∧
      newCalls (s.FreeFacade w) ((s.FreeFacade w).LoadFacade w) = [] ∧
      ((s.FreeFacade w).LoadFacade w).facade_counter = 0 ∧
      ((s.FreeFacade w).LoadFacade w).dataFacade.loaded = false) ∧
    (s.map_counter = 0 → s.mapping.IsMapped = false →
      (s.Unmap w).map_counter = 2 ^ w - 1 ∧
      newCalls s (s.Unmap w) = [] ∧
      (s.Unmap w).mapping.IsMapped = false ∧
      newCalls (s.Unmap w) ((s.Unmap w).Map w) = [Call.mappingMap] ∧
      ((s.Unmap w).Map w).map_counter = 0 ∧
      ((s.Unmap w).Map w).mapping.IsMapped = true) ∧
    (s.Map w).mapping.IsMapped = true ∧
    ((s.LoadFacade w).dataFacade.loaded = true ↔
      (s.dataFacade.loaded = true ∨ s.facade_counter = 0)) := by
  have h1 : 1 < 2 ^ w := one_lt_two_pow hw
  refine ⟨?_, ?_, Map_mapped w s, ?_⟩
  · intro hc hl
    have hd : decr w s.facade_counter = 2 ^ w - 1 := by rw [hc, decr_zero]
    have hne : ¬ decr w s.facade_counter = 0 := by omega
    have hne' : ¬ (s.FreeFacade w).facade_counter = 0 := by
      rw [FreeFacade_counter]; exact hne
    have hl' : (s.FreeFacade w).dataFacade.loaded = false := by
      rw [FreeFacade_loaded]; simp [hne, hl]
    refine ⟨by rw [FreeFacade_counter, hd], ?_, hl', ?_, ?_, ?_⟩
    · rw [newCalls_FreeFacade]; simp [hne]
    · rw [newCalls_LoadFacade]; simp [hne']
    · rw [LoadFacade_counter, FreeFacade_counter, hd, incr_max]
    · rw [LoadFacade_loaded]; simp [hne', hl']
  · intro hc hm
    have hd : decr w s.map_counter = 2 ^ w - 1 := by rw [hc, decr_zero]
    have hne : ¬ decr w s.map_counter = 0 := by omega
    have hm' : (s.Unmap w).mapping.IsMapped = false := by
      rw [Unmap_mapped]; simp [hne, hm]
    refine ⟨by rw [Unmap_counter, hd], ?_, hm', ?_, ?_, Map_mapped w _⟩
    · rw [newCalls_Unmap]; simp [hne]
    · rw [newCalls_Map]; simp [hm']
    · rw [Map_counter, Unmap_counter, hd, incr_max]
  · rw [LoadFacade_loaded]
    by_cases h0 : s.facade_counter = 0 <;> simp [h0]

/-- C10 at the fresh state on a 64-bit `size_t`. -/
theorem unbalanced_release_wraps_witness :
    0 < 64 ∧
    ((freshMapping "tile" 0).FreeFacade 64).facade_counter = 2 ^ 64 - 1 ∧
    (((freshMapping "tile" 0).FreeFacade 64).LoadFacade 64).facade_counter = 0 ∧
    (((freshMapping "tile" 0).FreeFacade 64).LoadFacade 64).dataFacade.loaded = false ∧
    ((freshMapping "tile" 0).Unmap 64).map_counter = 2 ^ 64 - 1 ∧
    (((freshMapping "tile" 0).Unmap 64).Map 64).map_counter = 0 ∧
    (((freshMapping "tile" 0).Unmap 64).Map 64).mapping.IsMapped = true :=
  have h := unbalanced_release_wraps 64 (by decide) (freshMapping "tile" 0)
  have hf := h.1 rfl rfl
  have hm := h.2.1 rfl rfl
  ⟨by decide, hf.1, hf.2.2.2.2.1, hf.2.2.2.2.2, hm.1, hm.2.2.2.2.1, hm.2.2.2.2.2⟩

/-! ## The cache `m_mapping` -/

theorem string_eq_of_not_lt {a b : String} (h1 : ¬ a < b) (h2 : ¬ b < a) : a = b :=
  le_antisymm (not_lt.mp h2) (not_lt.mp h1)

theorem mapFind_mapInsert (k : String) (v : RoutingMappingPtrT) :
    ∀ (m : List (String × RoutingMappingPtrT)), mapFind m k = none →
      ∀ x, mapFind (mapInsert m (k, v)) x = if k = x then some v else mapFind m x := by
  intro m
  induction m with
  | nil => intro _ x; simp [mapInsert, mapFind]
  | cons e r ih =>
    obtain ⟨k0, v0⟩ := e
    intro hnone x
    have hne : k0 ≠ k := by
      intro h
      simp [mapFind, h] at hnone
    have hr : mapFind r k = none := by
      simpa [mapFind, hne] using hnone
    simp only [mapInsert]
    by_cases h1 : k < k0
    · simp [h1, mapFind]
    · by_cases h2 : k0 < k
      · simp only [h1, h2, if_true, if_false, mapFind, ih hr x]
        by_cases hx : k0 = x
        · have : k ≠ x := fun h => hne (hx.trans h.symm)
          simp [hx, this]
        · simp [hx]
      · exact absurd (string_eq_of_not_lt h1 h2).symm hne

theorem length_mapInsert (k : String) (v : RoutingMappingPtrT) :
    ∀ (m : List (String × RoutingMappingPtrT)), mapFind m k = none →
      (mapInsert m (k, v)).length = m.length + 1 := by
  intro m
  induction m with
  | nil => intro _; simp [mapInsert]
  | cons e r ih =>
    obtain ⟨k0, v0⟩ := e
    intro hnone
    have hne : k0 ≠ k := by
      intro h
      simp [mapFind, h] at hnone
    have hr : mapFind r k = none := by
      simpa [mapFind, hne] using hnone
    simp only [mapInsert]
    by_cases h1 : k < k0
    · simp [h1]
    · by_cases h2 : k0 < k
      · simp [h1, h2, ih hr]
      · exact absurd (string_eq_of_not_lt h1 h2).symm hne

theorem mem_mapInsert_of_mem (kv : String × RoutingMappingPtrT) :
    ∀ (m : List (String × RoutingMappingPtrT)) (e : String × RoutingMappingPtrT),
      e ∈ m → e ∈ mapInsert m kv := by
  intro m
  induction m with
  | nil => intro e h; simp at h
  | cons e0 r ih =>
    obtain ⟨k0, v0⟩ := e0
    intro e he
    simp only [mapInsert]
    by_cases h1 : kv.1 < k0
    · simp only [h1, if_true]
      exact List.mem_cons_of_mem _ he
    · by_cases h2 : k0 < kv.1
      · simp only [h1, h2, if_true, if_false]
        rcases List.mem_cons.mp he with h | h
        · exact List.mem_cons.mpr (Or.inl h)
        · exact List.mem_cons_of_mem _ (ih e h)
      · simp only [h1, h2, if_false]
        exact he

theorem mem_of_mem_mapInsert (kv : String × RoutingMappingPtrT) :
    ∀ (m : List (String × RoutingMappingPtrT)) (e : String × RoutingMappingPtrT),
      e ∈ mapInsert m kv → e ∈ m ∨ e = kv := by
  intro m
  induction m with
  | nil => intro e h; simp [mapInsert] at h; exact Or.inr h
  | cons e0 r ih =>
    obtain ⟨k0, v0⟩ := e0
    intro e he
    simp only [mapInsert] at he
    by_cases h1 : kv.1 < k0
    · simp only [h1, if_true] at he
      rcases List.mem_cons.mp he with h | h
      · exact Or.inr h
      · exact Or.inl h
    · by_cases h2 : k0 < kv.1
      · simp only [h1, h2, if_true, if_false] at he
        rcases List.mem_cons.mp he with h | h
        · exact Or.inl (List.mem_cons.mpr (Or.inl h))
        · rcases ih e h with h' | h'
          · exact Or.inl (List.mem_cons_of_mem _ h')
          · exact Or.inr h'
      · simp only [h1, h2, if_false] at he
        exact Or.inl he

theorem GetMappingByPoint_hit {Point Idx : Type} (ctor : String → Idx → RoutingMapping)
    (m : RoutingIndexManager Point) (objects : List RoutingMapping) (point : Point)
    (pIndex : Idx) (h : RoutingMappingPtrT)
    (hf : mapFind m.m_mapping (m.m_countryFn point) = some h) :
    m.GetMappingByPoint ctor objects point pIndex
      = { handle := h, manager := m, objects := objects } := by
  simp only [RoutingIndexManager.GetMappingByPoint, hf]

theorem GetMappingByPoint_miss {Point Idx : Type} (ctor : String → Idx → RoutingMapping)
    (m : RoutingIndexManager Point) (objects : List RoutingMapping) (point : Point)
    (pIndex : Idx) (hf : mapFind m.m_mapping (m.m_countryFn point) = none) :
    m.GetMappingByPoint ctor objects point pIndex
      = { handle := objects.length,
          manager :=
            { m_countryFn := m.m_countryFn,
              m_mapping := mapInsert m.m_mapping (m.m_countryFn point, objects.length) },
          objects := objects ++ [ctor (m.m_countryFn point) pIndex] } := by
  simp only [RoutingIndexManager.GetMappingByPoint, hf]

/-! ## C3, C6 : the manager -/

/-- C3: for two points of the same tile, `GetMappingByPoint(p)` followed by
`GetMappingByPoint(q)` returns the same handle twice; the two calls construct
one `RoutingMapping` when the tile name was not in the cache before the first
call and none otherwise. -/
theorem construct_once_then_share {Point Idx : Type} (ctor : String → Idx → RoutingMapping)
    (m : RoutingIndexManager Point) (objects : List RoutingMapping) (p q : Point)
    (i j : Idx) (h : m.m_countryFn p = m.m_countryFn q) :
    ((m.GetMappingByPoint ctor objects p i).manager.GetMappingByPoint ctor
        (m.GetMappingByPoint ctor objects p i).objects q j).handle
      = (m.GetMappingByPoint ctor objects p i).handle ∧
    ((m.GetMappingByPoint ctor objects p i).manager.GetMappingByPoint ctor
        (m.GetMappingByPoint ctor objects p i).objects q j).objects
      = (if mapFind m.m_mapping (m.m_countryFn p) = none
          then objects ++ [ctor (m.m_countryFn p) i] else objects) ∧
    ((m.GetMappingByPoint ctor objects p i).manager.GetMappingByPoint ctor
        (m.GetMappingByPoint ctor objects p i).objects q j).objects.length
      ≤ objects.length + 1 ∧
    (((m.GetMappingByPoint ctor objects p i).manager.GetMappingByPoint ctor
        (m.GetMappingByPoint ctor objects p i).objects q j).objects.length
      = objects.length + 1 ↔ mapFind m.m_mapping (m.m_countryFn p) = none) := by
  cases hf : mapFind m.m_mapping (m.m_countryFn p) with
  | some h0 =>
    rw [GetMappingByPoint_hit ctor m objects p i h0 hf]
    have hq : mapFind m.m_mapping (m.m_countryFn q) = some h0 := by rw [← h]; exact hf
    rw [GetMappingByPoint_hit ctor m objects q j h0 hq]
    simp
  | none =>
    rw [GetMappingByPoint_miss ctor m objects p i hf]
    have hq : mapFind (mapInsert m.m_mapping (m.m_countryFn p, objects.length))
        (m.m_countryFn q) = some objects.length := by
      rw [mapFind_mapInsert _ _ _ hf, if_pos h]
    rw [GetMappingByPoint_hit ctor _ _ q j objects.length hq]
    simp

/-- C3 at the points 12 and 15 of tile "B", which `demoManager` has not resolved
yet. -/
theorem construct_once_then_share_witness :
    demoManager.m_countryFn 12 = demoManager.m_countryFn 15 ∧
    ((demoManager.GetMappingByPoint demoCtor demoObjects 12 ()).manager.GetMappingByPoint
        demoCtor (demoManager.GetMappingByPoint demoCtor demoObjects 12 ()).objects 15 ()).handle
      = (demoManager.GetMappingByPoint demoCtor demoObjects 12 ()).handle ∧
    (((demoManager.GetMappingByPoint demoCtor demoObjects 12 ()).manager.GetMappingByPoint
        demoCtor (demoManager.GetMappingByPoint demoCtor demoObjects 12 ()).objects 15
          ()).objects.length
      = demoObjects.length + 1 ↔
        mapFind demoManager.m_mapping (demoManager.m_countryFn 12) = none) :=
  have h := construct_once_then_share demoCtor demoManager demoObjects 12 15 () () rfl
  ⟨rfl, h.1, h.2.2.2⟩

/-- C6: `GetMappingByPoint` keeps every entry of the cache and the handle found
under every key; on a hit the manager is unchanged; on a miss the cache grows
by exactly the entry `(m_countryFn(point), returned handle)`.  `Clear()` leaves
the cache empty. -/
theorem no_per_tile_eviction {Point Idx : Type} (ctor : String → Idx → RoutingMapping)
    (m : RoutingIndexManager Point) (objects : List RoutingMapping) (point : Point)
    (pIndex : Idx) :
    (∀ e, e ∈ m.m_mapping →
      e ∈ (m.GetMappingByPoint ctor objects point pIndex).manager.m_mapping) ∧
    (∀ k h, mapFind m.m_mapping k = some h →
      mapFind (m.GetMappingByPoint ctor objects point pIndex).manager.m_mapping k = some h) ∧
    (∀ h, mapFind m.m_mapping (m.m_countryFn point) = some h →
      (m.GetMappingByPoint ctor objects point pIndex).manager = m ∧
      (m.GetMappingByPoint ctor objects point pIndex).handle = h) ∧
    (mapFind m.m_mapping (m.m_countryFn point) = none →
      (m.GetMappingByPoint ctor objects point pIndex).manager.m_mapping.length
        = m.m_mapping.length + 1 ∧
      mapFind (m.GetMappingByPoint ctor objects point pIndex).manager.m_mapping
          (m.m_countryFn point)
        = some (m.GetMappingByPoint ctor objects point pIndex).handle ∧
      (∀ e, e ∈ (m.GetMappingByPoint ctor objects point pIndex).manager.m_mapping →
        e ∈ m.m_mapping ∨
          e = (m.m_countryFn point, (m.GetMappingByPoint ctor objects point pIndex).handle))) ∧
    m.Clear.m_mapping = [] := by
  cases hf : mapFind m.m_mapping (m.m_countryFn point) with
  | some h0 =>
    rw [GetMappingByPoint_hit ctor m objects point pIndex h0 hf]
    refine ⟨fun e he => he, fun k h hk => hk, ?_, ?_, rfl⟩
    · intro h hh
      exact ⟨rfl, (Option.some.inj hh)⟩
    · intro hn
      cases hn
  | none =>
    rw [GetMappingByPoint_miss ctor m objects point pIndex hf]
    refine ⟨fun e he => mem_mapInsert_of_mem _ _ e he, ?_, ?_, ?_, rfl⟩
    · intro k h hk
      show mapFind (mapInsert m.m_mapping (m.m_countryFn point, objects.length)) k = some h
      rw [mapFind_mapInsert _ _ _ hf]
      have hne : m.m_countryFn point ≠ k := by
        intro e
        rw [e] at hf
        rw [hf] at hk
        cases hk
      rw [if_neg hne]
      exact hk
    · intro h hh
      cases hh
    · intro _
      refine ⟨length_mapInsert _ _ _ hf, ?_, fun e he => mem_of_mem_mapInsert _ _ e he⟩
      show mapFind (mapInsert m.m_mapping (m.m_countryFn point, objects.length)) _ = _
      rw [mapFind_mapInsert _ _ _ hf, if_pos rfl]

/-- C6 at `demoManager`: a miss for point 12 keeps the entry of tile "A" and adds
one entry, a hit for point 3 leaves the manager unchanged. -/
theorem no_per_tile_eviction_witness :
    (mapFind demoManager.m_mapping "A" = some 0 ∧
      mapFind (demoManager.GetMappingByPoint demoCtor demoObjects 12 ()).manager.m_mapping "A"
        = some 0) ∧
    (mapFind demoManager.m_mapping (demoManager.m_countryFn 3) = some 0 ∧
      (demoManager.GetMappingByPoint demoCtor demoObjects 3 ()).manager = demoManager) ∧
    (mapFind demoManager.m_mapping (demoManager.m_countryFn 12) = none ∧
      (demoManager.GetMappingByPoint demoCtor demoObjects 12 ()).manager.m_mapping.length
        = demoManager.m_mapping.length + 1) :=
  have h12 := no_per_tile_eviction demoCtor demoManager demoObjects 12 ()
  have h3 := no_per_tile_eviction demoCtor demoManager demoObjects 3 ()
  have hA : mapFind demoManager.m_mapping "A" = some 0 := by decide
  have hB : mapFind demoManager.m_mapping (demoManager.m_countryFn 12) = none := by decide
  ⟨⟨hA, h12.2.1 "A" 0 hA⟩, ⟨hA, (h3.2.2.1 0 hA).1⟩, ⟨hB, (h12.2.2.2.1 hB).1⟩⟩

/-! ## C9 : transitions at the 0 <-> 1 boundary -/

theorem noExcessRelease_of_all_acquire (ops : List Op) (h : ∀ o, o ∈ ops → o = Op.acquire) :
    NoExcessRelease ops := by
  intro n
  have : (ops.take n).count Op.release = 0 := by
    apply List.count_eq_zero_of_not_mem
    intro hm
    have := h _ (List.mem_of_mem_take hm)
    cases this
  omega

theorem observeMap_append (w : Nat) : ∀ (a b : List Op) (s : RoutingMapping),
    observeMap w (a ++ b) s = observeMap w a s ++ observeMap w b (runMap w a s) := by
  intro a
  induction a with
  | nil => intro b s; rfl
  | cons o a ih =>
    intro b s
    show _ :: observeMap w (a ++ b) (applyMapOp w o s) = _
    rw [ih]
    rfl

theorem observeFacade_append (w : Nat) : ∀ (a b : List Op) (s : RoutingMapping),
    observeFacade w (a ++ b) s
      = observeFacade w a s ++ observeFacade w b (runFacade w a s) := by
  intro a
  induction a with
  | nil => intro b s; rfl
  | cons o a ih =>
    intro b s
    show _ :: observeFacade w (a ++ b) (applyFacadeOp w o s) = _
    rw [ih]
    rfl

theorem observeMap_ops (w : Nat) : ∀ (ops : List Op) (s : RoutingMapping),
    (observeMap w ops s).map (fun o => o.op) = ops := by
  intro ops
  induction ops with
  | nil => intro s; rfl
  | cons o ops ih => intro s; simp only [observeMap, List.map_cons, ih]

/-- A run through `Map()`/`Unmap()` from `s` and the same run through
`LoadFacade()`/`FreeFacade()` from `t`, started at equal counts with both
invariants, make their calls exactly at the 0 <-> 1 boundary and at the same
steps, as long as no release goes below zero and fewer than `2 ^ w` acquires
are outstanding. -/
theorem observe_lockstep (w : Nat) : ∀ (ops : List Op) (s t : RoutingMapping),
    MapInv s → FacadeInv t → s.map_counter = t.facade_counter →
    (∀ n, (ops.take n).count Op.release ≤ s.map_counter + (ops.take n).count Op.acquire) →
    (∀ n, s.map_counter + (ops.take n).count Op.acquire
        < (ops.take n).count Op.release + 2 ^ w) →
    (∀ o, o ∈ observeMap w ops s →
      o.calls = boundaryCalls Call.mappingMap Call.mappingUnmap o.op o.before o.after) ∧
    (∀ o, o ∈ observeFacade w ops t →
      o.calls = boundaryCalls Call.facadeLoad Call.facadeClear o.op o.before o.after) ∧
    observeFacade w ops t = (observeMap w ops s).map facadeObsOf := by
  intro ops
  induction ops with
  | nil => intro s t _ _ _ _ _; simp [observeMap, observeFacade]
  | cons o ops ih =>
    intro s t hs ht hst h1 h2
    cases o with
    | acquire =>
      have hlt : s.map_counter + 1 < 2 ^ w := by
        have := h2 1
        simpa using this
      have hlt' : t.facade_counter + 1 < 2 ^ w := by omega
      have hc : (s.Map w).map_counter = s.map_counter + 1 := by
        rw [Map_counter, incr_of_lt hlt]
      have hc' : (t.LoadFacade w).facade_counter = t.facade_counter + 1 := by
        rw [LoadFacade_counter, incr_of_lt hlt']
      obtain ⟨i1, i2, i3⟩ := ih (s.Map w) (t.LoadFacade w) (Map_keeps_inv hlt)
        (LoadFacade_keeps_inv ht hlt') (by omega)
        (by
          intro n
          have := h1 (n + 1)
          simp only [List.take_succ_cons, List.count_cons] at this
          simp at this
          omega)
        (by
          intro n
          have := h2 (n + 1)
          simp only [List.take_succ_cons, List.count_cons] at this
          simp at this
          omega)
      have hm : s.mapping.IsMapped = true ↔ 0 < s.map_counter := hs
      have e1 : newCalls s (s.Map w)
          = boundaryCalls Call.mappingMap Call.mappingUnmap Op.acquire s.map_counter
              (s.Map w).map_counter := by
        rw [newCalls_Map, hc]
        simp only [boundaryCalls]
        by_cases h0 : s.map_counter = 0
        · have : ¬ s.mapping.IsMapped = true := fun h => by have := hm.mp h; omega
          simp [h0, this]
        · have : s.mapping.IsMapped = true := hm.mpr (by omega)
          simp [h0, this]
      have e2 : newCalls t (t.LoadFacade w)
          = boundaryCalls Call.facadeLoad Call.facadeClear Op.acquire t.facade_counter
              (t.LoadFacade w).facade_counter := by
        rw [newCalls_LoadFacade, hc']
        simp only [boundaryCalls]
        by_cases h0 : t.facade_counter = 0 <;> simp [h0]
      refine ⟨?_, ?_, ?_⟩
      · intro o ho
        simp only [observeMap, applyMapOp, List.mem_cons] at ho
        rcases ho with rfl | ho
        · exact e1
        · exact i1 o ho
      · intro o ho
        simp only [observeFacade, applyFacadeOp, List.mem_cons] at ho
        rcases ho with rfl | ho
        · exact e2
        · exact i2 o ho
      · simp only [observeMap, observeFacade, applyMapOp, applyFacadeOp, List.map_cons, i3]
        congr 1
        simp only [facadeObsOf, e1, e2, hc, hc', hst, boundaryCalls]
        by_cases h0 : t.facade_counter = 0 <;> simp [h0, facadeCallOf]
    | release =>
      have hpos : 0 < s.map_counter := by
        have := h1 1
        simp at this
        omega
      have hlt : s.map_counter < 2 ^ w := by
        have := h2 0
        simpa using this
      have hpos' : 0 < t.facade_counter := by omega
      have hlt' : t.facade_counter < 2 ^ w := by omega
      have hd : decr w s.map_counter = s.map_counter - 1 := decr_of_pos hpos hlt
      have hd' : decr w t.facade_counter = t.facade_counter - 1 := decr_of_pos hpos' hlt'
      have hc : (s.Unmap w).map_counter = s.map_counter - 1 := by
        rw [Unmap_counter, hd]
      have hc' : (t.FreeFacade w).facade_counter = t.facade_counter - 1 := by
        rw [FreeFacade_counter, hd']
      obtain ⟨i1, i2, i3⟩ := ih (s.Unmap w) (t.FreeFacade w) (Unmap_keeps_inv hs hpos)
        (FreeFacade_keeps_inv ht hpos') (by omega)
        (by
          intro n
          have := h1 (n + 1)
          simp only [List.take_succ_cons, List.count_cons] at this
          simp at this
          omega)
        (by
          intro n
          have := h2 (n + 1)
          simp only [List.take_succ_cons, List.count_cons] at this
          simp at this
          omega)
      have hm : s.mapping.IsMapped = true := hs.mpr hpos
      have e1 : newCalls s (s.Unmap w)
          = boundaryCalls Call.mappingMap Call.mappingUnmap Op.release s.map_counter
              (s.Unmap w).map_counter := by
        rw [newCalls_Unmap, hc, hd]
        simp only [boundaryCalls]
        by_cases h0 : s.map_counter = 1
        · simp [h0, hm]
        · have : ¬ s.map_counter - 1 = 0 := by omega
          simp [h0, this]
      have e2 : newCalls t (t.FreeFacade w)
          = boundaryCalls Call.facadeLoad Call.facadeClear Op.release t.facade_counter
              (t.FreeFacade w).facade_counter := by
        rw [newCalls_FreeFacade, hc', hd']
        simp only [boundaryCalls]
        by_cases h0 : t.facade_counter = 1
        · simp [h0]
        · have : ¬ t.facade_counter - 1 = 0 := by omega
          simp [h0, this]
      refine ⟨?_, ?_, ?_⟩
      · intro o ho
        simp only [observeMap, applyMapOp, List.mem_cons] at ho
        rcases ho with rfl | ho
        · exact e1
        · exact i1 o ho
      · intro o ho
        simp only [observeFacade, applyFacadeOp, List.mem_cons] at ho
        rcases ho with rfl | ho
        · exact e2
        · exact i2 o ho
      · simp only [observeMap, observeFacade, applyMapOp, applyFacadeOp, List.map_cons, i3]
        congr 1
        simp only [facadeObsOf, e1, e2, hc, hc', hst, boundaryCalls]
        by_cases h0 : t.facade_counter = 1
        · simp [h0, facadeCallOf]
        · have : ¬ t.facade_counter - 1 = 0 := by omega
          simp [h0, this]

theorem last_observeMap_acquire (w : Nat) (hw : 1 < 2 ^ w) (a : List Op) (s : RoutingMapping)
    (hc : (runMap w a s).map_counter = 0) (hm : (runMap w a s).mapping.IsMapped = true) :
    (observeMap w (a ++ [Op.acquire]) s).getLast?
      = some { op := Op.acquire, before := 0, after := 1, calls := [] } := by
  rw [observeMap_append]
  have e1 : ((runMap w a s).Map w).map_counter = 1 := by
    rw [Map_counter, hc]
    exact Nat.mod_eq_of_lt hw
  have e2 : newCalls (runMap w a s) ((runMap w a s).Map w) = [] := by
    rw [newCalls_Map]
    simp [hm]
  show (observeMap w a s ++ [StepObs.mk Op.acquire (runMap w a s).map_counter
    ((runMap w a s).Map w).map_counter
    (newCalls (runMap w a s) ((runMap w a s).Map w))]).getLast? = _
  rw [List.getLast?_concat, hc, e1, e2]

theorem last_observeFacade_acquire (w : Nat) (hw : 1 < 2 ^ w) (a : List Op)
    (s : RoutingMapping) (hc : (runFacade w a s).facade_counter = 0) :
    (observeFacade w (a ++ [Op.acquire]) s).getLast?
      = some { op := Op.acquire, before := 0, after := 1, calls := [Call.facadeLoad] } := by
  rw [observeFacade_append]
  have e1 : ((runFacade w a s).LoadFacade w).facade_counter = 1 := by
    rw [LoadFacade_counter, hc]
    exact Nat.mod_eq_of_lt hw
  have e2 : newCalls (runFacade w a s) ((runFacade w a s).LoadFacade w)
      = [Call.facadeLoad] := by
    rw [newCalls_LoadFacade]
    simp [hc]
  show (observeFacade w a s ++ [StepObs.mk Op.acquire (runFacade w a s).facade_counter
    ((runFacade w a s).LoadFacade w).facade_counter
    (newCalls (runFacade w a s) ((runFacade w a s).LoadFacade w))]).getLast? = _
  rw [List.getLast?_concat, hc, e1, e2]

/-- C9, as stated, fails: on a 64-bit `size_t`, in the sequence of
`2 ^ 64 + 1` acquires (no release at all) the last `Map()` takes `map_counter`
from 0 to 1 and does not invoke `mapping.Map`, which the boundary discipline
asks for; the last `LoadFacade()` of the same sequence takes `facade_counter`
from 0 to 1 and does invoke `dataFacade.Load`, so the two disciplines do not
make their calls at the same steps. -/
theorem wrap_breaks_boundary_rule :
    NoExcessRelease (List.replicate (2 ^ 64) Op.acquire ++ [Op.acquire]) ∧
    (observeMap 64 (List.replicate (2 ^ 64) Op.acquire ++ [Op.acquire])
        (freshMapping "tile" 0)).getLast?
      = some { op := Op.acquire, before := 0, after := 1, calls := [] } ∧
    boundaryCalls Call.mappingMap Call.mappingUnmap Op.acquire 0 1 = [Call.mappingMap] ∧
    (observeFacade 64 (List.replicate (2 ^ 64) Op.acquire ++ [Op.acquire])
        (freshMapping "tile" 0)).getLast?
      = some { op := Op.acquire, before := 0, after := 1, calls := [Call.facadeLoad] } := by
  have hpos : 0 < 2 ^ 64 := by norm_num
  have hw : 1 < 2 ^ 64 := by norm_num
  have e : ∀ c : Nat, c = 0 → (c + 2 ^ 64) % 2 ^ 64 = 0 := by
    intro c hc
    rw [hc]
    norm_num
  obtain ⟨h1, h2⟩ := runMap_replicate_acquire 64 (2 ^ 64) (freshMapping "tile" 0) hpos
  have h3 := runFacade_replicate_acquire 64 (2 ^ 64) (freshMapping "tile" 0) hpos
  refine ⟨?_, ?_, rfl, ?_⟩
  · apply noExcessRelease_of_all_acquire
    intro o ho
    rcases List.mem_append.mp ho with h | h
    · exact (List.mem_replicate.mp h).2
    · exact List.mem_singleton.mp h
  · exact last_observeMap_acquire 64 hw (List.replicate (2 ^ 64) Op.acquire)
      (freshMapping "tile" 0) (h1.trans (e _ rfl)) h2
  · exact last_observeFacade_acquire 64 hw (List.replicate (2 ^ 64) Op.acquire)
      (freshMapping "tile" 0) (h3.trans (e _ rfl))

/-- C9, amended: on every acquire/release sequence from the fresh state in
which no initial segment has more releases than acquires and fewer than
`2 ^ w` acquires are ever outstanding, `Map()` invokes `mapping.Map` exactly at
the acquires that take `map_counter` from 0 to 1 and `Unmap()` invokes
`mapping.Unmap` exactly at the releases that take it from 1 to 0; the same
sequence through `LoadFacade()`/`FreeFacade()` shows the same counter values
and invokes `dataFacade.Load` and `dataFacade.Clear` at exactly the same
steps. -/
theorem boundary_discipline (w : Nat) (ops : List Op) (name : String) (mwmId : Nat)
    (h1 : NoExcessRelease ops) (h2 : OutstandingBelow w ops) :
    (observeMap w ops (freshMapping name mwmId)).map (fun o => o.op) = ops ∧
    (∀ o, o ∈ observeMap w ops (freshMapping name mwmId) →
      o.calls = boundaryCalls Call.mappingMap Call.mappingUnmap o.op o.before o.after) ∧
    (∀ o, o ∈ observeFacade w ops (freshMapping name mwmId) →
      o.calls = boundaryCalls Call.facadeLoad Call.facadeClear o.op o.before o.after) ∧
    observeFacade w ops (freshMapping name mwmId)
      = (observeMap w ops (freshMapping name mwmId)).map facadeObsOf := by
  refine ⟨observeMap_ops w ops _, ?_⟩
  refine observe_lockstep w ops (freshMapping name mwmId) (freshMapping name mwmId)
    (mapInv_fresh name mwmId) (facadeInv_fresh name mwmId) rfl ?_ ?_
  · intro n
    have := h1 n
    show _ ≤ 0 + _
    omega
  · intro n
    have := h2 n
    show 0 + _ < _
    omega

/-- C9, amended, at the sequence acquire, acquire, release, release, acquire on a
64-bit `size_t`. -/
theorem boundary_discipline_witness :
    NoExcessRelease [Op.acquire, Op.acquire, Op.release, Op.release, Op.acquire] ∧
    OutstandingBelow 64 [Op.acquire, Op.acquire, Op.release, Op.release, Op.acquire] ∧
    (observeMap 64 [Op.acquire, Op.acquire, Op.release, Op.release, Op.acquire]
        (freshMapping "tile" 0)).map (fun o => o.calls)
      = [[Call.mappingMap], [], [], [Call.mappingUnmap], [Call.mappingMap]] ∧
    observeFacade 64 [Op.acquire, Op.acquire, Op.release, Op.release, Op.acquire]
        (freshMapping "tile" 0)
      = (observeMap 64 [Op.acquire, Op.acquire, Op.release, Op.release, Op.acquire]
          (freshMapping "tile" 0)).map facadeObsOf :=
  have hn : NoExcessRelease [Op.acquire, Op.acquire, Op.release, Op.release, Op.acquire] := by
    intro n
    match n with
    | 0 | 1 | 2 | 3 | 4 | n + 5 => simp
  have hb : OutstandingBelow 64
      [Op.acquire, Op.acquire, Op.release, Op.release, Op.acquire] := by
    intro n
    match n with
    | 0 | 1 | 2 | 3 | 4 | n + 5 => simp
  ⟨hn, hb, by decide, (boundary_discipline 64 _ "tile" 0 hn hb).2.2.2⟩

end routing
